import Mathlib

/-!
Verification development for the llm-web-agent core (Rust).

The Rust sources are shallowly embedded: pure logic becomes Lean
functions, external collaborators (the chromiumoxide page driver, the
scraper HTML/CSS engine, serde_json's text parser, the HTTP transport
and the LLM backend) become explicit oracle parameters, and fallible
code returns Except/Option.  `serde_json::Value` is modelled by `Json`
below with integer numerals (no claim computes with non-integral
numbers).  Each embedded definition keeps the source's name.
-/

namespace WebAgent

/-- Model of `serde_json::Value`.  Objects are association lists in
insertion order; numbers are integers (sufficient for every value the
embedded code constructs or inspects). -/
inductive Json where
  | null : Json
  | bool : Bool → Json
  | num : Int → Json
  | str : String → Json
  | arr : List Json → Json
  | obj : List (String × Json) → Json
deriving Repr

/-- `value == json!(null)` (serde_json `Value` equality against `Null`):
true exactly when the value is `Null`. -/
def Json.isNull : Json → Bool
  | .null => true
  | _ => false

/-- `value == "Product"` (serde_json `PartialEq<str>`): true exactly when
the value is that string. -/
def Json.eqStr (j : Json) (s : String) : Bool :=
  match j with
  | .str t => t = s
  | _ => false

/-- First binding of a key in an association list (serde_json `Map::get`,
`HashMap::get`). -/
def alistLookup {α : Type} : List (String × α) → String → Option α
  | [], _ => none
  | (k, v) :: rest, key => if k = key then some v else alistLookup rest key

/-- `Value::get(key)`: `Some` only on objects holding the key. -/
def Json.get? : Json → String → Option Json
  | .obj fields, key => alistLookup fields key
  | _, _ => none

/-- `value[key]` on a shared reference: `Null` when the value is not an
object or the key is absent. -/
def Json.idx (j : Json) (key : String) : Json :=
  (j.get? key).getD .null

/-- `Value::as_str`. -/
def Json.asStr : Json → Option String
  | .str s => some s
  | _ => none

/-- Whether an object value carries the key at all. -/
def Json.hasKey (j : Json) (key : String) : Bool :=
  (j.get? key).isSome

/-- Replace the first binding of `k` or append a new one: the effect of
`object[k] = v` on a `serde_json` object. -/
def setField : List (String × Json) → String → Json → List (String × Json)
  | [], k, v => [(k, v)]
  | (k', v') :: rest, k, v =>
    if k' = k then (k, v) :: rest else (k', v') :: setField rest k v

/-- `value[k] = v` (used only on objects in the source). -/
def Json.setIdx : Json → String → Json → Json
  | .obj fields, k, v => .obj (setField fields k v)
  | j, _, _ => j

/-! ## Data model (`src/types.rs`) -/

/-- `ScrollDirection` (types.rs). -/
inductive ScrollDirection where
  | up | down | left | right
deriving Repr, DecidableEq

/-- `BrowserAction` (types.rs), a serde enum tagged
`#[serde(tag = "type", content = "params")]`.  `u64`/`i32` fields become
`Nat`/`Int`. -/
inductive BrowserAction where
  | click (selector : String)
  | type_ (selector : String) (text : String)
  | wait (duration_ms : Nat)
  | waitForElement (selector : String) (timeout_ms : Option Nat)
  | scroll (direction : ScrollDirection) (pixels : Option Int)
  | screenshot
  | getPageSource
  | executeScript (script : String)
deriving Repr, DecidableEq

/-- `TaskStep` (types.rs). -/
structure TaskStep where
  id : String
  action : BrowserAction
  description : String
  expected_outcome : Option String
deriving Repr, DecidableEq

/-- `TaskPlan` (types.rs). -/
structure TaskPlan where
  steps : List TaskStep
  description : String
deriving Repr, DecidableEq

/-- `TaskResult` (types.rs). -/
structure TaskResult where
  step_id : String
  success : Bool
  output : Option String
  error : Option String
deriving Repr, DecidableEq

/-- `ProductInfo` as constructed in `llama_client.rs` (that snapshot of the
module carries the diagnostic `raw_llm_response` field). -/
structure ProductInfo where
  name : Option String
  description : Option String
  price : Option String
  availability : Option String
  brand : Option String
  rating : Option String
  image_url : Option String
  raw_data : Option String
  raw_llm_response : Option String
deriving Repr, DecidableEq

/-! ## Task-plan execution (`BrowserSession::execute_task_plan`, browser.rs)

The live page is abstracted by an oracle `interact` giving each action's
outcome, exactly the information `BrowserSession::interact` returns.
The source loops over `plan.steps`, pushes one `TaskResult` per step
(success ↦ output, failure ↦ error message) and continues past failures;
the inter-step 500ms sleep does not affect the collected results. -/

def execute_task_plan (interact : BrowserAction → Except String String)
    (plan : TaskPlan) : List TaskResult :=
  plan.steps.map fun step =>
    match interact step.action with
    | .ok output =>
        { step_id := step.id, success := true, output := some output, error := none }
    | .error e =>
        { step_id := step.id, success := false, output := none, error := some e }

/-! ## Serde round-trip for `BrowserAction` (types.rs)

The derived serde code for `#[serde(tag = "type", content = "params")]`
is embedded: `serializeAction` produces the exact JSON shape serde
emits; `deserializeAction` reads the tag, then the content fields by
name, refusing a wrong shape with `none` (serde's `Err`). -/

def serializeScrollDirection : ScrollDirection → Json
  | .up => .str "Up"
  | .down => .str "Down"
  | .left => .str "Left"
  | .right => .str "Right"

def deserializeScrollDirection : Json → Option ScrollDirection
  | .str "Up" => some .up
  | .str "Down" => some .down
  | .str "Left" => some .left
  | .str "Right" => some .right
  | _ => none

def serializeOptNat : Option Nat → Json
  | none => .null
  | some n => .num n

def deserializeOptNat : Json → Option (Option Nat)
  | .null => some none
  | .num i => if 0 ≤ i then some (some i.toNat) else none
  | _ => none

def serializeOptInt : Option Int → Json
  | none => .null
  | some n => .num n

def deserializeOptInt : Json → Option (Option Int)
  | .null => some none
  | .num i => some (some i)
  | _ => none

def serializeAction : BrowserAction → Json
  | .click selector =>
      .obj [("type", .str "Click"), ("params", .obj [("selector", .str selector)])]
  | .type_ selector text =>
      .obj [("type", .str "Type"),
            ("params", .obj [("selector", .str selector), ("text", .str text)])]
  | .wait duration_ms =>
      .obj [("type", .str "Wait"), ("params", .obj [("duration_ms", .num duration_ms)])]
  | .waitForElement selector timeout_ms =>
      .obj [("type", .str "WaitForElement"),
            ("params", .obj [("selector", .str selector),
                             ("timeout_ms", serializeOptNat timeout_ms)])]
  | .scroll direction pixels =>
      .obj [("type", .str "Scroll"),
            ("params", .obj [("direction", serializeScrollDirection direction),
                             ("pixels", serializeOptInt pixels)])]
  | .screenshot => .obj [("type", .str "Screenshot")]
  | .getPageSource => .obj [("type", .str "GetPageSource")]
  | .executeScript script =>
      .obj [("type", .str "ExecuteScript"), ("params", .obj [("script", .str script)])]

def deserializeAction (j : Json) : Option BrowserAction :=
  match (j.idx "type").asStr with
  | some "Click" =>
      match (j.idx "params" |>.idx "selector").asStr with
      | some selector => some (.click selector)
      | none => none
  | some "Type" =>
      match (j.idx "params" |>.idx "selector").asStr,
            (j.idx "params" |>.idx "text").asStr with
      | some selector, some text => some (.type_ selector text)
      | _, _ => none
  | some "Wait" =>
      match j.idx "params" |>.idx "duration_ms" with
      | .num i => if 0 ≤ i then some (.wait i.toNat) else none
      | _ => none
  | some "WaitForElement" =>
      match (j.idx "params" |>.idx "selector").asStr,
            deserializeOptNat (j.idx "params" |>.idx "timeout_ms") with
      | some selector, some timeout_ms => some (.waitForElement selector timeout_ms)
      | _, _ => none
  | some "Scroll" =>
      match deserializeScrollDirection (j.idx "params" |>.idx "direction"),
            deserializeOptInt (j.idx "params" |>.idx "pixels") with
      | some direction, some pixels => some (.scroll direction pixels)
      | _, _ => none
  | some "Screenshot" => some .screenshot
  | some "GetPageSource" => some .getPageSource
  | some "ExecuteScript" =>
      match (j.idx "params" |>.idx "script").asStr with
      | some script => some (.executeScript script)
      | none => none
  | _ => none

/-! ## String primitives

Rust's `str` operations, modelled executably on `List Char` / `String`
so the kernel can evaluate them on concrete inputs.  `char::to_lowercase`
and Unicode `White_Space` are modelled by `Char.toLower` and
`Char.isWhitespace`; the labels and inputs the claims mention are
ASCII, where the two agree with Rust. -/

/-- Whether `pat` is a prefix of `hay` (`str::starts_with`). -/
def listIsPrefix : List Char → List Char → Bool
  | [], _ => true
  | _ :: _, [] => false
  | p :: ps, h :: hs => p == h && listIsPrefix ps hs

/-- `str::contains(pat)`: `pat` occurs as a contiguous substring. -/
def containsChars (pat : List Char) : List Char → Bool
  | [] => listIsPrefix pat []
  | h :: rest => listIsPrefix pat (h :: rest) || containsChars pat rest

/-- `str::split(sep)` on a single separator character: every segment,
empty segments preserved, always at least one segment. -/
def splitOnChar (sep : Char) : List Char → List (List Char)
  | [] => [[]]
  | c :: rest =>
    if c = sep then [] :: splitOnChar sep rest
    else
      match splitOnChar sep rest with
      | [] => [[c]]
      | s :: ss => (c :: s) :: ss

/-- `str::trim_start`. -/
def trimLeftChars (l : List Char) : List Char :=
  l.dropWhile Char.isWhitespace

/-- `str::trim_end`. -/
def trimRightChars (l : List Char) : List Char :=
  (l.reverse.dropWhile Char.isWhitespace).reverse

/-- `str::trim`. -/
def trimChars (l : List Char) : List Char :=
  trimRightChars (trimLeftChars l)

/-- `str::to_lowercase`. -/
def lowerChars (l : List Char) : List Char :=
  l.map Char.toLower

/-- `str::trim` on `String`. -/
def rustTrim (s : String) : String :=
  String.mk (trimChars s.data)

/-- `Vec<&str>::join(sep)`. -/
def joinSep (sep : String) : List String → String
  | [] => ""
  | [s] => s
  | s :: rest => s ++ sep ++ joinSep sep rest

/-! ## HTML document model (the `scraper` crate's interface)

The claims' extraction functions drive the external `scraper` engine
only through `Selector::parse` + `Html::select`; that interface is the
oracle.  An `Element` carries its text parts (`ElementRef::text` yields
the text nodes in document order) and its attributes; a `Document` maps
a CSS selector string to `none` when `Selector::parse` fails, and to
the matched elements in document order otherwise. -/

/-- One matched HTML element. -/
structure Element where
  textParts : List String
  attrs : List (String × String)

/-- `element.text().collect::<Vec<_>>().join(" ")`. -/
def Element.textJoined (e : Element) : String :=
  joinSep " " e.textParts

/-- `element.text().collect::<String>()`. -/
def Element.textConcat (e : Element) : String :=
  joinSep "" e.textParts

/-- `element.value().attr(name)`. -/
def Element.attr (e : Element) (name : String) : Option String :=
  alistLookup e.attrs name

/-- The selector-resolution oracle for one parsed HTML document. -/
abbrev Document := String → Option (List Element)

/-! ## `extract_by_selectors` (mcp_server.rs) -/

/-- Core of `extract_by_selectors`: for each supplied `(key, selector)`
pair whose selector parses, collect the non-empty trimmed texts of the
matched elements and store a scalar when exactly one was collected, an
array otherwise; a selector that fails to parse leaves its key
untouched.  Non-string selector values fall back to `""`
(`as_str().unwrap_or("")`). -/
def ebsStep (doc : Document) (results : Json) (kv : String × Json) : Json :=
  match doc ((kv.2.asStr).getD "") with
  | none => results
  | some elems =>
    results.setIdx kv.1
      (match (elems.map fun e => rustTrim e.textJoined).filter (fun t => !(t == "")) with
       | [v] => Json.str v
       | vs => Json.arr (vs.map Json.str))

def extract_by_selectors (doc : Document) (selectors : List (String × Json)) : Json :=
  selectors.foldl (ebsStep doc) (Json.obj [])

/-! ## `extract_product_data` (mcp_server.rs) -/

/-- The per-field CSS selector table of `extract_product_data`,
verbatim. -/
def product_selectors : List (String × List String) :=
  [("name", ["#productTitle", "h1.a-size-large", ".product-title"]),
   ("price", ["[data-testid='price']", ".a-price-whole", ".price",
              ".current-price", "[data-price]"]),
   ("description", ["[data-feature-name='productDescription']",
                    ".product-description", "#description"]),
   ("availability", ["#availability span", ".availability", "#stock-status"]),
   ("brand", ["[data-testid='brand']", ".brand", "#brand"]),
   ("rating", ["[data-testid='rating']", ".a-icon-alt", ".rating", ".star-rating"]),
   ("image", ["[data-testid='image']", "#landingImage", ".product-image img",
              ".main-image img"])]

/-- The value taken from one element: the `src` attribute for the image
field, the joined trimmed text otherwise. -/
def fieldValue (field : String) (e : Element) : String :=
  if field = "image" then (e.attr "src").getD "" else rustTrim e.textJoined

/-- Inner loop over one selector's matches: the first non-empty value. -/
def firstNonEmpty (field : String) : List Element → Option String
  | [] => none
  | e :: rest =>
    let value := fieldValue field e
    if value = "" then firstNonEmpty field rest else some value

/-- Outer loop over one field's selector list: selectors that fail to
parse are skipped; the first selector with a non-empty match wins. -/
def selectField (doc : Document) (field : String) : List String → Option String
  | [] => none
  | sel :: rest =>
    match doc sel with
    | none => selectField doc field rest
    | some elems =>
      match firstNonEmpty field elems with
      | some v => some v
      | none => selectField doc field rest

/-- The CSS-selector pass of `extract_product_data`: the fields (in
table order) whose selectors produced a non-empty value. -/
def spStep (doc : Document) (acc : List (String × Json)) (fs : String × List String) :
    List (String × Json) :=
  match selectField doc fs.1 fs.2 with
  | some v => setField acc fs.1 (Json.str v)
  | none => acc

def selector_pass (doc : Document) : List (String × Json) :=
  product_selectors.foldl (spStep doc) []

/-- `extract_product_from_jsonld`'s product-object builder for one
`Product`-typed item, field by field as in the source. -/
def productFromItem (item : Json) : Json :=
  let p : Json := .obj []
  let p := match item.get? "name" with
    | some v => p.setIdx "name" v
    | none => p
  let p := match item.get? "description" with
    | some v => p.setIdx "description" v
    | none => p
  let p := match item.get? "brand" with
    | some brand =>
        p.setIdx "brand"
          (match brand with
           | .str s => .str s
           | _ =>
             match brand.get? "name" with
             | some brand_name => brand_name
             | none => .null)
    | none => p
  let p := match item.get? "offers" with
    | some offers =>
        let p := match offers.get? "price" with
          | some v => p.setIdx "price" v
          | none => p
        match offers.get? "availability" with
        | some v => p.setIdx "availability" v
        | none => p
    | none => p
  let p := match item.get? "aggregateRating" with
    | some ar =>
        match ar.get? "ratingValue" with
        | some rv => p.setIdx "rating" rv
        | none => p
    | none => p
  match item.get? "image" with
  | some image =>
      p.setIdx "image_url"
        (match image with
         | .str s => .str s
         | .arr (x :: _) => x
         | _ => .null)
  | none => p

/-- Loop of `extract_product_from_jsonld` over the item list: the first
item whose `@type` is `"Product"` yields a product object. -/
def findProductItem : List Json → Option Json
  | [] => none
  | item :: rest =>
    match item.get? "@type" with
    | some type_val =>
        if type_val.eqStr "Product" then some (productFromItem item)
        else findProductItem rest
    | none => findProductItem rest

/-- `extract_product_from_jsonld`: single objects and arrays uniformly. -/
def extract_product_from_jsonld (json_ld : Json) : Option Json :=
  findProductItem
    (match json_ld with
     | .arr items => items
     | _ => [json_ld])

/-- The JSON-LD `<script>` selector of `extract_product_data`. -/
def ldSelector : String := "script[type='application/ld+json']"

/-- The JSON-LD merge of `extract_product_data`: each key of the
product object fills `product_data[key]` only while that entry is still
`Null` (absent or stored null) — selector results take precedence. -/
def mergeFields (acc : List (String × Json)) : List (String × Json) → List (String × Json)
  | [] => acc
  | (key, value) :: rest =>
    if ((Json.obj acc).idx key).isNull then mergeFields (setField acc key value) rest
    else mergeFields acc rest

/-- The JSON-LD pass of `extract_product_data`: every
`script[type='application/ld+json']` element whose text parses as JSON
(`parseJson` is the oracle for `serde_json::from_str`) and yields a
`Product` item is merged into the accumulated data. -/
def ldStep (parseJson : String → Option Json) (acc : List (String × Json))
    (el : Element) : List (String × Json) :=
  match parseJson el.textConcat with
  | none => acc
  | some json_ld =>
    match extract_product_from_jsonld json_ld with
    | some (Json.obj fields) => mergeFields acc fields
    | _ => acc

def jsonld_pass (doc : Document) (parseJson : String → Option Json)
    (product_data : List (String × Json)) : List (String × Json) :=
  match doc ldSelector with
  | none => product_data
  | some scripts => scripts.foldl (ldStep parseJson) product_data

/-- The `extracted_data` object of `extract_product_data`: the CSS
selector pass overlaid by the JSON-LD pass. -/
def extract_product_data_core (doc : Document) (parseJson : String → Option Json) :
    List (String × Json) :=
  jsonld_pass doc parseJson (selector_pass doc)

/-- `extract_product_data`'s response envelope (the wall-clock timestamp
is a parameter). -/
def extract_product_data (doc : Document) (parseJson : String → Option Json)
    (url timestamp : String) : Json :=
  .obj [("url", .str url),
        ("extracted_data", .obj (extract_product_data_core doc parseJson)),
        ("extraction_timestamp", .str timestamp),
        ("extraction_method", .str "css_selectors_and_jsonld")]

/-! ## JSON-RPC responder (`mcp_server.rs`) -/

/-- `ToolInfo` (mcp_server.rs). -/
structure ToolInfo where
  name : String
  description : String
  input_schema : Json

/-- `MCPRequest` (mcp_server.rs). -/
structure MCPRequest where
  jsonrpc : String
  id : Option Json
  method : String
  params : Option Json

/-- `MCPError` (mcp_server.rs). -/
structure MCPErrorObj where
  code : Int
  message : String
  data : Option Json

/-- `MCPResponse` (mcp_server.rs). -/
structure MCPResponse where
  jsonrpc : String
  id : Option Json
  result : Option Json
  error : Option MCPErrorObj

/-- `MCPServerState::new()`'s fixed tool manifest, schemas verbatim. -/
def mcpServerTools : List ToolInfo :=
  [{ name := "extract_clean_text",
     description := "Extract clean, readable text content from HTML",
     input_schema := .obj
       [("type", .str "object"),
        ("properties", .obj
          [("html_content", .obj
            [("type", .str "string"),
             ("description", .str "Raw HTML content to clean")])]),
        ("required", .arr [.str "html_content"])] },
   { name := "extract_product_data",
     description := "Extract structured product information using CSS selectors",
     input_schema := .obj
       [("type", .str "object"),
        ("properties", .obj
          [("html_content", .obj
            [("type", .str "string"),
             ("description", .str "HTML content to parse")]),
           ("url", .obj
            [("type", .str "string"),
             ("description", .str "Source URL for context")])]),
        ("required", .arr [.str "html_content"])] },
   { name := "extract_by_selectors",
     description := "Extract specific content using CSS selectors",
     input_schema := .obj
       [("type", .str "object"),
        ("properties", .obj
          [("html_content", .obj
            [("type", .str "string"),
             ("description", .str "HTML content to parse")]),
           ("selectors", .obj
            [("type", .str "object"),
             ("description", .str "CSS selectors to extract data"),
             ("additionalProperties", .obj [("type", .str "string")])])]),
        ("required", .arr [.str "html_content", .str "selectors"])] },
   { name := "analyze_page_structure",
     description := "Analyze HTML structure and suggest extraction strategies",
     input_schema := .obj
       [("type", .str "object"),
        ("properties", .obj
          [("html_content", .obj
            [("type", .str "string"),
             ("description", .str "HTML content to analyze")])]),
        ("required", .arr [.str "html_content"])] }]

/-- `handle_initialize` (mcp_server.rs). -/
def handle_initialize (request : MCPRequest) : MCPResponse :=
  { jsonrpc := "2.0", id := request.id,
    result := some (.obj
      [("capabilities", .obj
        [("tools", .bool true), ("resources", .bool false), ("prompts", .bool false)]),
       ("serverInfo", .obj
        [("name", .str "web-content-extractor"), ("version", .str "1.0.0")])]),
    error := none }

/-- `handle_tools_list` (mcp_server.rs). -/
def handle_tools_list (tools : List ToolInfo) (request : MCPRequest) : MCPResponse :=
  { jsonrpc := "2.0", id := request.id,
    result := some (.obj
      [("tools", .arr (tools.map fun tool => .obj
        [("name", .str tool.name),
         ("description", .str tool.description),
         ("inputSchema", tool.input_schema)]))]),
    error := none }

/-- The `match tool_name` dispatch inside `handle_tool_call`.  The four
tool bodies are parameters (each is a stateless function of its JSON
arguments); the unknown-tool error is the responder's own. -/
def callTool (clean_text product_data by_selectors page_structure : Json → Except String Json)
    (tool_name : String) (arguments : Json) : Except String Json :=
  if tool_name = "extract_clean_text" then clean_text arguments
  else if tool_name = "extract_product_data" then product_data arguments
  else if tool_name = "extract_by_selectors" then by_selectors arguments
  else if tool_name = "analyze_page_structure" then page_structure arguments
  else .error ("Unknown tool: " ++ tool_name)

/-- `handle_tool_call` (mcp_server.rs): absent params → −32602; then
`params["name"].as_str().unwrap_or("")` picks the tool and a failing
dispatch → −32603 with the underlying message. -/
def handle_tool_call (clean_text product_data by_selectors page_structure : Json → Except String Json)
    (request : MCPRequest) : MCPResponse :=
  match request.params with
  | none =>
    { jsonrpc := "2.0", id := request.id, result := none,
      error := some { code := -32602, message := "Invalid params", data := none } }
  | some params =>
    let tool_name := ((params.idx "name").asStr).getD ""
    let arguments := params.idx "arguments"
    match callTool clean_text product_data by_selectors page_structure tool_name arguments with
    | .ok content =>
      { jsonrpc := "2.0", id := request.id, result := some content, error := none }
    | .error e =>
      { jsonrpc := "2.0", id := request.id, result := none,
        error := some { code := -32603, message := e, data := none } }

/-- `handle_mcp_request` (mcp_server.rs): the method switch. -/
def handle_mcp_request (clean_text product_data by_selectors page_structure : Json → Except String Json)
    (request : MCPRequest) : MCPResponse :=
  if request.method = "initialize" then handle_initialize request
  else if request.method = "tools/list" then handle_tools_list mcpServerTools request
  else if request.method = "tools/call" then
    handle_tool_call clean_text product_data by_selectors page_structure request
  else
    { jsonrpc := "2.0", id := request.id, result := none,
      error := some { code := -32601, message := "Method not found", data := none } }

/-! ## `WaitForElement` polling (`BrowserSession::interact`, browser.rs)

The loop polls `find_element` once per iteration, errors out when the
elapsed time strictly exceeds the timeout, and otherwise sleeps 100ms.
Time is modelled deterministically: the elapsed milliseconds at poll
`k` are exactly `100 * k` (each sleep contributes its full 100ms,
everything else is instantaneous).  `found k` is the oracle for poll
`k`'s `find_element(...).is_ok()`.  The returned `Nat` counts the
polls performed. -/

/-- One run of the polling loop from poll index `k`, with enough fuel. -/
def waitLoop (found : Nat → Bool) (timeout : Nat) : Nat → Nat → Except String String × Nat
  | 0, k => (.error "out of fuel", k)
  | fuel + 1, k =>
    if found k then (.ok "Element found", k + 1)
    else if 100 * k > timeout then
      (.error ("Element not found within " ++ toString timeout ++ "ms"), k + 1)
    else waitLoop found timeout fuel (k + 1)

/-- The `WaitForElement` arm of `interact`: `timeout_ms` defaults to
30000; the fuel `timeout / 100 + 2` is provably enough for the loop to
reach its own exit. -/
def wait_for_element (found : Nat → Bool) (timeout_ms : Option Nat) :
    Except String String × Nat :=
  let timeout := timeout_ms.getD 30000
  waitLoop found timeout (timeout / 100 + 2) 0

/-! ## `BrowserSession::extract_data` (browser.rs)

The injected `querySelectorAll` script returns one JSON object per
matched element; `evalValue` is that script's result (`None` when the
driver returned no value).  The source inserts the raw array under
`"elements"` and then a hard-coded `0` under `"count"` (its
`// TODO: Calculate count` is left undone). -/

def extract_data (evalValue : Option Json) : List (String × Json) :=
  (match evalValue with
   | some value => [("elements", value)]
   | none => []) ++ [("count", Json.num 0)]

/-! ## HTTP error taxonomy and `interact_with_page` (types.rs, lib.rs) -/

/-- `AppError` (types.rs); the serde error is carried as its message. -/
inductive AppError where
  | browserError (msg : String)
  | sessionNotFound (session_id : String)
  | mcpError (msg : String)
  | serializationError (msg : String)
  | internalError (msg : String)
deriving Repr, DecidableEq

/-- The HTTP status `AppError::into_response` picks. -/
def AppError.statusCode : AppError → Nat
  | .browserError _ => 400
  | .sessionNotFound _ => 404
  | .mcpError _ => 500
  | .serializationError _ => 400
  | .internalError _ => 500

/-- The error string `AppError::into_response` puts in the JSON body. -/
def AppError.errorMessage : AppError → String
  | .browserError msg => msg
  | .sessionNotFound session_id => "Session " ++ session_id ++ " not found"
  | .mcpError msg => msg
  | .serializationError msg => "Serialization error: " ++ msg
  | .internalError msg => msg

/-- A stored `BrowserSession`, abstracted to the outcome its `interact`
produces per action (the page handle lives in the external driver). -/
structure SessionModel where
  interact : BrowserAction → Except String String

/-- `InteractionRequest` (types.rs). -/
structure InteractionRequest where
  session_id : String
  action : BrowserAction

/-- `InteractionResponse` (types.rs). -/
structure InteractionResponse where
  success : Bool
  result : Option String
deriving Repr, DecidableEq

/-- `interact_with_page` (lib.rs): look the session up in the map
(`get_mut`), absent id → `SessionNotFound`; otherwise run the action
and wrap the outcome.  The session map is returned alongside: the
handler never inserts or removes an entry. -/
def interact_with_page (sessions : List (String × SessionModel))
    (request : InteractionRequest) :
    Except AppError InteractionResponse × List (String × SessionModel) :=
  match alistLookup sessions request.session_id with
  | none => (.error (.sessionNotFound request.session_id), sessions)
  | some session =>
    match session.interact request.action with
    | .ok result => (.ok { success := true, result := some result }, sessions)
    | .error e => (.error (.browserError e), sessions)

/-! ## Tool-calling loop (`LlamaClient::extract_product_information`,
llama_client.rs)

The HTTP collaborators are oracles: `getTools` for `get_mcp_tools`,
`callLlama` for `call_llama_with_tools` (a function of the conversation
sent), `execTool` for `execute_mcp_tool`, and `parseFinal` for
`parse_final_product_response` (which never fails by construction).
The loop body is embedded exactly: a response with `tool_calls`
dispatches each call (propagating `?` errors), appends the assistant
and tool messages, and counts one turn; a response with content only
terminates through the final parse; a response with neither breaks to
the fallback; exhausting `max_turns = 5` yields the fallback.  The
returned `Nat` counts the tool-dispatching turns taken. -/

/-- `ToolCallFunction` (llama_client.rs). -/
structure ToolCallFunction where
  name : String
  arguments : String
deriving Repr, DecidableEq

/-- `ToolCall` (llama_client.rs). -/
structure ToolCall where
  id : Option String
  call_type : Option String
  function : ToolCallFunction
deriving Repr, DecidableEq

/-- `Message` (llama_client.rs). -/
structure ChatMessage where
  role : String
  content : String
  tool_calls : Option (List ToolCall)
deriving Repr, DecidableEq

/-- `ResponseMessage` (llama_client.rs). -/
structure ResponseMessage where
  content : Option String
  tool_calls : Option (List ToolCall)
deriving Repr, DecidableEq

/-- `OllamaResponse` (llama_client.rs). -/
structure OllamaResponse where
  message : ResponseMessage
  done : Bool
deriving Repr, DecidableEq

/-- `Tool` (llama_client.rs): one manifest entry sent to the model. -/
structure Tool where
  tool_type : String
  name : String
  description : String
  parameters : Json

/-- `create_fallback_product_info` (llama_client.rs), verbatim. -/
def create_fallback_product_info : ProductInfo :=
  { name := some "Unable to extract product name with MCP tools",
    description := some "Product information extraction failed using Llama + MCP",
    price := none, availability := none, brand := none, rating := none,
    image_url := none, raw_data := none,
    raw_llm_response := some "Fallback mode - MCP extraction failed" }

/-- `get_enhanced_product_extraction_prompt` (llama_client.rs). -/
def enhanced_product_extraction_prompt : String :=
  "You are an expert web scraping assistant with access to specialized HTML parsing tools. Your job is to extract product information from e-commerce websites using the available tools.\n\nAvailable tools:\n- analyze_page_structure: Identifies the type of e-commerce platform and suggests extraction strategies\n- extract_product_data: Uses CSS selectors and JSON-LD to extract structured product information\n- extract_clean_text: Removes clutter and extracts clean, readable content\n- extract_by_selectors: Extract specific data using custom CSS selectors\n\nBest practices:\n1. Always start by analyzing the page structure to understand the website type\n2. Use extract_product_data for comprehensive product extraction\n3. If extract_product_data doesn't work well, use extract_by_selectors with specific selectors\n4. Focus on extracting: name, price, description, availability, brand, rating, image URL\n5. Return results in a clear, structured format\n\nWork step by step and use the most appropriate tools for each task."

/-- The user prompt of `extract_product_information`, with the URL
formatted in. -/
def extraction_user_prompt (url : String) : String :=
  "I need to extract product information from this web page. The URL is: " ++ url ++
  "\n\nI have the raw HTML content available. Please use the appropriate tools to:\n1. First analyze the page structure to understand what kind of site this is\n2. Extract clean, structured product data\n3. Return the product information in a clear format\n\nStart by analyzing the page structure."

/-- The inner `for tool_call in tool_calls` loop: execute each call
(`?` propagates the failure), then append the assistant turn (carrying
the response content and that single call) and the tool-result turn. -/
def runToolCalls (execTool : ToolCall → Except String String) (respContent : String) :
    List ChatMessage → List ToolCall → Except String (List ChatMessage)
  | msgs, [] => .ok msgs
  | msgs, tool_call :: rest =>
    match execTool tool_call with
    | .error e => .error e
    | .ok tool_result =>
      runToolCalls execTool respContent
        (msgs ++
          [{ role := "assistant", content := respContent, tool_calls := some [tool_call] },
           { role := "tool", content := tool_result, tool_calls := none }])
        rest

/-- The `while conversation_turns < max_turns` loop, by recursion on
the remaining turns. -/
def extractLoop (callLlama : List ChatMessage → Except String OllamaResponse)
    (execTool : ToolCall → Except String String) (parseFinal : String → ProductInfo) :
    Nat → List ChatMessage → Except String ProductInfo × Nat
  | 0, _ => (.ok create_fallback_product_info, 0)
  | fuel + 1, messages =>
    match callLlama messages with
    | .error e => (.error e, 0)
    | .ok response =>
      match response.message.tool_calls with
      | some tool_calls =>
        match runToolCalls execTool (response.message.content.getD "") messages tool_calls with
        | .error e => (.error e, 0)
        | .ok messages' =>
          let r := extractLoop callLlama execTool parseFinal fuel messages'
          (r.1, r.2 + 1)
      | none =>
        match response.message.content with
        | some content => (.ok (parseFinal content), 0)
        | none => (.ok create_fallback_product_info, 0)

/-- `extract_product_information` (llama_client.rs): fetch the tool
manifest (`?` propagates), seed the conversation, run up to 5 turns. -/
def extract_product_information (getTools : Except String (List Tool))
    (callLlama : List ChatMessage → Except String OllamaResponse)
    (execTool : ToolCall → Except String String) (parseFinal : String → ProductInfo)
    (url : String) : Except String ProductInfo × Nat :=
  match getTools with
  | .error e => (.error e, 0)
  | .ok _tools =>
    extractLoop callLlama execTool parseFinal 5
      [{ role := "system", content := enhanced_product_extraction_prompt,
         tool_calls := none },
       { role := "user", content := extraction_user_prompt url, tool_calls := none }]

/-! ## Fallback text parser (`LlamaClient::parse_text_response`,
llama_client.rs)

`content.lines()` is modelled by splitting on the newline character
(the `\r` of a CRLF ending is removed by the per-line trim, as in the
source; the final empty segment after a trailing newline matches no
label and is inert). -/

/-- One iteration of the `for line in lines` loop: trim, lowercase, and
run the `else if` chain; a matching label stores the trimmed second
`split(':')` segment into its field. -/
def parse_text_line (acc : ProductInfo) (rawLine : List Char) : ProductInfo :=
  let line := trimChars rawLine
  let low := lowerChars line
  if containsChars "name:".data low || containsChars "product:".data low then
    match (splitOnChar ':' line)[1]? with
    | some v => { acc with name := some (String.mk (trimChars v)) }
    | none => acc
  else if containsChars "price:".data low then
    match (splitOnChar ':' line)[1]? with
    | some v => { acc with price := some (String.mk (trimChars v)) }
    | none => acc
  else if containsChars "brand:".data low then
    match (splitOnChar ':' line)[1]? with
    | some v => { acc with brand := some (String.mk (trimChars v)) }
    | none => acc
  else if containsChars "description:".data low then
    match (splitOnChar ':' line)[1]? with
    | some v => { acc with description := some (String.mk (trimChars v)) }
    | none => acc
  else acc

/-- `parse_text_response` (llama_client.rs). -/
def parse_text_response (content : String) : ProductInfo :=
  (splitOnChar '\n' content.data).foldl parse_text_line
    { name := none, description := none, price := none, availability := none,
      brand := none, rating := none, image_url := none,
      raw_data := some content, raw_llm_response := some content }

/-! ## Theorems -/

/-- Claim C1: for every oracle outcome of the individual actions and every
TaskPlan with n steps, `execute_task_plan` returns exactly n TaskResults in
input order — the i-th result carries the i-th step's id — execution
continuing past failing steps, and in every result the output is populated
exactly when the step succeeded and the error exactly when it failed. -/
theorem execute_task_plan_spec (interact : BrowserAction → Except String String)
    (plan : TaskPlan) :
    (execute_task_plan interact plan).length = plan.steps.length ∧
    ∀ i : Fin plan.steps.length,
      ∃ r, (execute_task_plan interact plan)[(i : Nat)]? = some r ∧
        r.step_id = (plan.steps.get i).id ∧
        r.output.isSome = r.success ∧
        r.error.isSome = !r.success := by
  constructor
  · simp [execute_task_plan]
  · intro i
    have hs : plan.steps[(i : Nat)]? = some (plan.steps.get i) :=
      List.getElem?_eq_getElem i.isLt
    rw [execute_task_plan, List.getElem?_map, hs, Option.map_some']
    refine ⟨_, rfl, ?_⟩
    cases interact (plan.steps.get i).action <;> simp

/-- Claim C1 witness: a concrete two-step plan, one failing step, evaluated. -/
theorem execute_task_plan_spec_witness :
    (execute_task_plan
      (fun a => match a with
        | .screenshot => .ok "data:image/png;base64,x"
        | _ => .error "Element not found")
      { steps := [
          { id := "s1", action := .screenshot, description := "shoot",
            expected_outcome := none },
          { id := "s2", action := .click "#missing", description := "click",
            expected_outcome := none }],
        description := "demo" }).length = 2 :=
  (execute_task_plan_spec
    (fun a => match a with
      | .screenshot => .ok "data:image/png;base64,x"
      | _ => .error "Element not found")
    { steps := [
        { id := "s1", action := .screenshot, description := "shoot",
          expected_outcome := none },
        { id := "s2", action := .click "#missing", description := "click",
          expected_outcome := none }],
      description := "demo" }).1.trans rfl

/-- Claim C2: serialize-then-deserialize is the identity on every
`BrowserAction` value, all eight variants, optional fields present or
absent. -/
theorem browser_action_roundtrip (a : BrowserAction) :
    deserializeAction (serializeAction a) = some a := by
  cases a with
  | click selector => rfl
  | type_ selector text => rfl
  | wait duration_ms =>
      simp [serializeAction, deserializeAction, Json.idx, Json.get?, alistLookup,
        Json.asStr]
  | waitForElement selector timeout_ms =>
      cases timeout_ms with
      | none => rfl
      | some t =>
          simp [serializeAction, deserializeAction, Json.idx, Json.get?, alistLookup,
            Json.asStr, serializeOptNat, deserializeOptNat]
  | scroll direction pixels => cases direction <;> cases pixels <;> rfl
  | screenshot => rfl
  | getPageSource => rfl
  | executeScript script => rfl

/-! ### Association-list helper lemmas -/

theorem alistLookup_setField_self (l : List (String × Json)) (k : String) (v : Json) :
    alistLookup (setField l k v) k = some v := by
  induction l with
  | nil => simp [setField, alistLookup]
  | cons hd tl ih =>
    obtain ⟨k', v'⟩ := hd
    by_cases h : k' = k
    · simp [setField, h, alistLookup]
    · simp [setField, h, alistLookup, ih]

theorem alistLookup_setField_ne (l : List (String × Json)) (k k' : String) (v : Json)
    (h : k ≠ k') : alistLookup (setField l k v) k' = alistLookup l k' := by
  induction l with
  | nil => simp [setField, alistLookup, h]
  | cons hd tl ih =>
    obtain ⟨k₀, v₀⟩ := hd
    by_cases h₀ : k₀ = k
    · subst h₀; simp [setField, alistLookup, h]
    · simp [setField, h₀, alistLookup, ih]

theorem Json.get?_setIdx_ne (j : Json) (k k' : String) (v : Json) (h : k ≠ k') :
    (j.setIdx k v).get? k' = j.get? k' := by
  cases j <;> simp [Json.setIdx, Json.get?, alistLookup_setField_ne _ _ _ _ h]

theorem Json.get?_obj_setIdx_self (fields : List (String × Json)) (k : String) (v : Json) :
    ((Json.obj fields).setIdx k v).get? k = some v := by
  simp [Json.setIdx, Json.get?, alistLookup_setField_self]

/-- Claim C9: an `interact` request naming an unknown session id produces
`SessionNotFound`, which maps to HTTP 404 with an error message containing
"Session", and the session map comes back unchanged. -/
theorem interact_unknown_session (sessions : List (String × SessionModel))
    (request : InteractionRequest)
    (h : alistLookup sessions request.session_id = none) :
    (interact_with_page sessions request).1
        = .error (.sessionNotFound request.session_id) ∧
    (interact_with_page sessions request).2 = sessions ∧
    (AppError.sessionNotFound request.session_id).statusCode = 404 ∧
    ∃ tail, (AppError.sessionNotFound request.session_id).errorMessage
        = "Session" ++ tail := by
  refine ⟨?_, ?_, rfl, ⟨" " ++ (request.session_id ++ " not found"), ?_⟩⟩
  · simp [interact_with_page, h]
  · simp [interact_with_page, h]
  · show "Session " ++ request.session_id ++ " not found" = _
    have hs : ("Session " : String) = "Session" ++ " " := rfl
    rw [hs, String.append_assoc, String.append_assoc]

/-- Claim C9 witness: the empty session registry and a concrete request. -/
theorem interact_unknown_session_witness :
    (interact_with_page [] { session_id := "sess-404", action := .screenshot }).1
        = .error (.sessionNotFound "sess-404") ∧
    (interact_with_page [] { session_id := "sess-404", action := .screenshot }).2 = [] ∧
    (AppError.sessionNotFound "sess-404").statusCode = 404 ∧
    ∃ tail, (AppError.sessionNotFound "sess-404").errorMessage = "Session" ++ tail :=
  interact_unknown_session [] { session_id := "sess-404", action := .screenshot } rfl

/-- Claim C8 (code bug): `extract_data` hard-codes the `"count"` entry to 0
(the source's `TODO` left undone), so a selector matching one element still
reports a count of 0, not 1. -/
theorem extract_data_count_always_zero :
    ∃ matched : List Json,
      matched.length = 1 ∧
      alistLookup (extract_data (some (.arr matched))) "count" = some (.num 0) :=
  ⟨[.obj [("text", .str "Hello"), ("tagName", .str "div")]], rfl, rfl⟩

/-- Claim C4 counterexample: a `tools/call` request whose params are
present but malformed (an object with no `"name"`) is answered with code
−32603 through the unknown-tool path (`as_str().unwrap_or("")`), not with
−32602 as the claim states for malformed params. -/
theorem handle_mcp_request_malformed_params_counterexample :
    ((handle_mcp_request (fun _ => .ok .null) (fun _ => .ok .null) (fun _ => .ok .null)
        (fun _ => .ok .null)
        { jsonrpc := "2.0", id := some (.num 1), method := "tools/call",
          params := some (.obj []) }).error.map MCPErrorObj.code = some (-32603)) ∧
    ((handle_mcp_request (fun _ => .ok .null) (fun _ => .ok .null) (fun _ => .ok .null)
        (fun _ => .ok .null)
        { jsonrpc := "2.0", id := some (.num 1), method := "tools/call",
          params := some (.obj []) }).error.map MCPErrorObj.message
      = some ("Unknown tool: ")) ∧
    some (-32603 : Int) ≠ some (-32602 : Int) := by
  refine ⟨rfl, rfl, by decide⟩

/-- Claim C4 (amended): an unknown method is answered −32601; a
`tools/call` with params absent is answered −32602; and a `tools/call`
whose tool dispatch fails (including the unknown-tool fallthrough for
malformed params) is answered −32603 carrying the underlying message. -/
theorem handle_mcp_request_error_codes
    (t1 t2 t3 t4 : Json → Except String Json) (request : MCPRequest) :
    (request.method ≠ "initialize" → request.method ≠ "tools/list" →
      request.method ≠ "tools/call" →
      (handle_mcp_request t1 t2 t3 t4 request).error
        = some { code := -32601, message := "Method not found", data := none }) ∧
    (request.method = "tools/call" → request.params = none →
      (handle_mcp_request t1 t2 t3 t4 request).error
        = some { code := -32602, message := "Invalid params", data := none }) ∧
    (∀ params e, request.method = "tools/call" → request.params = some params →
      callTool t1 t2 t3 t4 (((params.idx "name").asStr).getD "") (params.idx "arguments")
        = .error e →
      (handle_mcp_request t1 t2 t3 t4 request).error
        = some { code := -32603, message := e, data := none }) := by
  refine ⟨?_, ?_, ?_⟩
  · intro h1 h2 h3
    simp [handle_mcp_request, h1, h2, h3]
  · intro hm hp
    simp [handle_mcp_request, hm, handle_tool_call, hp]
  · intro params e hm hp hcall
    simp [handle_mcp_request, hm, handle_tool_call, hp, hcall]

/-- Claim C4 witness: the three branches at concrete requests — an unknown
method, a `tools/call` without params, and a `tools/call` whose tool
execution fails with a missing-parameter message. -/
theorem handle_mcp_request_error_codes_witness :
    ((handle_mcp_request (fun _ => .error "Missing html_content parameter")
        (fun _ => .ok .null) (fun _ => .ok .null) (fun _ => .ok .null)
        { jsonrpc := "2.0", id := some (.num 1), method := "resources/list",
          params := none }).error
      = some { code := -32601, message := "Method not found", data := none }) ∧
    ((handle_mcp_request (fun _ => .error "Missing html_content parameter")
        (fun _ => .ok .null) (fun _ => .ok .null) (fun _ => .ok .null)
        { jsonrpc := "2.0", id := some (.num 2), method := "tools/call",
          params := none }).error
      = some { code := -32602, message := "Invalid params", data := none }) ∧
    ((handle_mcp_request (fun _ => .error "Missing html_content parameter")
        (fun _ => .ok .null) (fun _ => .ok .null) (fun _ => .ok .null)
        { jsonrpc := "2.0", id := some (.num 3), method := "tools/call",
          params := some (.obj [("name", .str "extract_clean_text")]) }).error
      = some { code := -32603, message := "Missing html_content parameter",
               data := none }) :=
  ⟨(handle_mcp_request_error_codes _ _ _ _ _).1 (by decide) (by decide) (by decide),
   (handle_mcp_request_error_codes _ _ _ _ _).2.1 rfl rfl,
   (handle_mcp_request_error_codes _ _ _ _ _).2.2 (.obj [("name", .str "extract_clean_text")])
     "Missing html_content parameter" rfl rfl rfl⟩

/-! ### `extract_by_selectors` fold lemmas -/

theorem ebsStep_get?_ne (doc : Document) (results : Json) (kv : String × Json)
    (k : String) (h : kv.1 ≠ k) :
    (ebsStep doc results kv).get? k = results.get? k := by
  unfold ebsStep
  cases doc ((kv.2.asStr).getD "") with
  | none => rfl
  | some elems => simp [Json.get?_setIdx_ne _ _ _ _ h]

theorem ebs_foldl_get?_notmem (doc : Document) (sels : List (String × Json)) :
    ∀ (acc : Json) (k : String), k ∉ sels.map Prod.fst →
      (sels.foldl (ebsStep doc) acc).get? k = acc.get? k := by
  induction sels with
  | nil => intro acc k _; rfl
  | cons hd tl ih =>
    intro acc k hk
    rw [List.map_cons, List.mem_cons] at hk
    push_neg at hk
    rw [List.foldl_cons, ih _ k hk.2, ebsStep_get?_ne doc acc hd k (fun h => hk.1 h.symm)]

theorem ebs_foldl_get?_mem (doc : Document) :
    ∀ (sels : List (String × Json)) (fields : List (String × Json)) (k : String) (j : Json),
      (sels.map Prod.fst).Nodup → (k, j) ∈ sels → alistLookup fields k = none →
      (sels.foldl (ebsStep doc) (Json.obj fields)).get? k =
        match doc ((j.asStr).getD "") with
        | none => none
        | some elems =>
          some (match (elems.map fun e => rustTrim e.textJoined).filter (fun t => !(t == "")) with
                | [v] => Json.str v
                | vs => Json.arr (vs.map Json.str)) := by
  intro sels
  induction sels with
  | nil => intro fields k j _ hmem _; exact absurd hmem (List.not_mem_nil _)
  | cons hd tl ih =>
    intro fields k j hnd hmem hnone
    rw [List.map_cons, List.nodup_cons] at hnd
    rcases List.mem_cons.mp hmem with heq | hmem'
    · subst heq
      rw [List.foldl_cons]
      have hnot : k ∉ tl.map Prod.fst := hnd.1
      rw [ebs_foldl_get?_notmem doc tl _ k hnot]
      cases hdoc : doc ((j.asStr).getD "") with
      | none => simp [ebsStep, hdoc, Json.get?, hnone]
      | some elems => simp [ebsStep, hdoc, Json.get?_obj_setIdx_self]
    · have hkmem : k ∈ tl.map Prod.fst := List.mem_map.mpr ⟨(k, j), hmem', rfl⟩
      have hne : hd.1 ≠ k := fun h => hnd.1 (h ▸ hkmem)
      rw [List.foldl_cons]
      cases hdoc : doc ((hd.2.asStr).getD "") with
      | none =>
        have hsf : ebsStep doc (Json.obj fields) hd = Json.obj fields := by
          simp [ebsStep, hdoc]
        rw [hsf]
        exact ih fields k j hnd.2 hmem' hnone
      | some elems =>
        have hsf : ebsStep doc (Json.obj fields) hd =
            Json.obj (setField fields hd.1
              (match (elems.map fun e => rustTrim e.textJoined).filter (fun t => !(t == "")) with
               | [v] => Json.str v
               | vs => Json.arr (vs.map Json.str))) := by
          simp [ebsStep, hdoc, Json.setIdx]
        rw [hsf]
        refine ih _ k j hnd.2 hmem' ?_
        rw [alistLookup_setField_ne _ _ _ _ hne, hnone]

/-- Claim C5 counterexample: a selector that parses but matches no element
leaves its key PRESENT in the result, bound to an empty array — the claim
says such a key is absent. -/
theorem extract_by_selectors_no_match_key_present :
    (extract_by_selectors (fun _ => some []) [("k", Json.str ".item")]).hasKey "k" = true ∧
    extract_by_selectors (fun _ => some []) [("k", Json.str ".item")]
      = Json.obj [("k", Json.arr [])] :=
  ⟨rfl, rfl⟩

/-- Claim C5 (amended): for distinct keys, each supplied key whose selector
fails to parse is absent from the result; a selector that parses is always
present — bound to a scalar when exactly one non-empty trimmed text was
collected, and to the array of non-empty trimmed texts in document order
otherwise (an empty array when nothing matched). -/
theorem extract_by_selectors_spec (doc : Document) (selectors : List (String × Json))
    (hnd : (selectors.map Prod.fst).Nodup) (k : String) (j : Json)
    (hmem : (k, j) ∈ selectors) :
    (extract_by_selectors doc selectors).get? k =
      match doc ((j.asStr).getD "") with
      | none => none
      | some elems =>
        some (match (elems.map fun e => rustTrim e.textJoined).filter (fun t => !(t == "")) with
              | [v] => Json.str v
              | vs => Json.arr (vs.map Json.str)) :=
  ebs_foldl_get?_mem doc selectors [] k j hnd hmem rfl

/-- Claim C5 witness: one selector with a single match, one matching three
elements (array of three trimmed texts in document order), one matching
nothing, and one whose selector fails to parse. -/
theorem extract_by_selectors_spec_witness :
    ((extract_by_selectors
        (fun s =>
          if s == "#title" then some [{ textParts := [" Widget "], attrs := [] }]
          else if s == ".price" then
            some [{ textParts := ["$1 ", ""], attrs := [] },
                  { textParts := [" $2"], attrs := [] },
                  { textParts := ["$3"], attrs := [] }]
          else if s == ".missing" then some []
          else none)
        [("one", Json.str "#title"), ("many", Json.str ".price"),
         ("zero", Json.str ".missing"), ("bad", Json.str "p[")]).get? "one"
      = some (Json.str "Widget")) ∧
    ((extract_by_selectors
        (fun s =>
          if s == "#title" then some [{ textParts := [" Widget "], attrs := [] }]
          else if s == ".price" then
            some [{ textParts := ["$1 ", ""], attrs := [] },
                  { textParts := [" $2"], attrs := [] },
                  { textParts := ["$3"], attrs := [] }]
          else if s == ".missing" then some []
          else none)
        [("one", Json.str "#title"), ("many", Json.str ".price"),
         ("zero", Json.str ".missing"), ("bad", Json.str "p[")]).get? "many"
      = some (Json.arr [Json.str "$1", Json.str "$2", Json.str "$3"])) ∧
    ((extract_by_selectors
        (fun s =>
          if s == "#title" then some [{ textParts := [" Widget "], attrs := [] }]
          else if s == ".price" then
            some [{ textParts := ["$1 ", ""], attrs := [] },
                  { textParts := [" $2"], attrs := [] },
                  { textParts := ["$3"], attrs := [] }]
          else if s == ".missing" then some []
          else none)
        [("one", Json.str "#title"), ("many", Json.str ".price"),
         ("zero", Json.str ".missing"), ("bad", Json.str "p[")]).get? "zero"
      = some (Json.arr [])) ∧
    ((extract_by_selectors
        (fun s =>
          if s == "#title" then some [{ textParts := [" Widget "], attrs := [] }]
          else if s == ".price" then
            some [{ textParts := ["$1 ", ""], attrs := [] },
                  { textParts := [" $2"], attrs := [] },
                  { textParts := ["$3"], attrs := [] }]
          else if s == ".missing" then some []
          else none)
        [("one", Json.str "#title"), ("many", Json.str ".price"),
         ("zero", Json.str ".missing"), ("bad", Json.str "p[")]).get? "bad"
      = none) :=
  ⟨(extract_by_selectors_spec _ _ (by decide) "one" (Json.str "#title")
      (by simp)).trans rfl,
   (extract_by_selectors_spec _ _ (by decide) "many" (Json.str ".price")
      (by simp)).trans rfl,
   (extract_by_selectors_spec _ _ (by decide) "zero" (Json.str ".missing")
      (by simp)).trans rfl,
   (extract_by_selectors_spec _ _ (by decide) "bad" (Json.str "p[")
      (by simp)).trans rfl⟩

/-! ### `WaitForElement` loop lemmas -/

theorem waitLoop_never_found (found : Nat → Bool) (T : Nat) (hf : ∀ j, found j = false) :
    ∀ fuel k, k ≤ T / 100 + 1 → fuel = T / 100 + 2 - k →
      waitLoop found T fuel k
        = (.error ("Element not found within " ++ toString T ++ "ms"), T / 100 + 2) := by
  intro fuel
  induction fuel with
  | zero => intro k hk hfuel; omega
  | succ fuel ih =>
    intro k hk hfuel
    rw [waitLoop, hf k]
    simp only [Bool.false_eq_true, if_false]
    by_cases hto : 100 * k > T
    · rw [if_pos hto]
      have hk' : k + 1 = T / 100 + 2 := by omega
      rw [hk']
    · rw [if_neg hto]
      exact ih (k + 1) (by omega) (by omega)

theorem waitLoop_found (found : Nat → Bool) (T : Nat) (k : Nat)
    (hk : found k = true) (hmin : ∀ i, i < k → found i = false)
    (hbound : k ≤ T / 100 + 1) :
    ∀ fuel j, j ≤ k → fuel = T / 100 + 2 - j →
      waitLoop found T fuel j = (.ok "Element found", k + 1) := by
  intro fuel
  induction fuel with
  | zero => intro j hj hfuel; omega
  | succ fuel ih =>
    intro j hj hfuel
    rw [waitLoop]
    by_cases hjk : j = k
    · subst hjk
      rw [hk]
      simp
    · have hjlt : j < k := by omega
      rw [hmin j hjlt]
      simp only [Bool.false_eq_true, if_false]
      have hto : ¬ (100 * j > T) := by omega
      rw [if_neg hto]
      exact ih (j + 1) (by omega) (by omega)

/-- Claim C7 counterexample: with the default timeout (30000ms, divisible
by 100) and a selector that never resolves, the loop performs
`30000 / 100 + 2 = 302` polls before returning the timeout error — one
more than the `ceil(timeout/100) + 1 = 301` polls the claim allows. -/
theorem wait_for_element_poll_count_counterexample :
    (wait_for_element (fun _ => false) none).2 = 302 ∧
    (30000 + 99) / 100 + 1 = 301 ∧
    ¬ (302 ≤ 301) := by
  refine ⟨?_, by norm_num, by norm_num⟩
  have h := waitLoop_never_found (fun _ => false) 30000 (fun _ => rfl)
    (30000 / 100 + 2) 0 (by norm_num) (by norm_num)
  rw [wait_for_element]
  simp only [Option.getD]
  rw [h]

/-- Claim C7 (amended): the polling loop always terminates; `timeout_ms`
defaults to 30000; on a selector that never resolves it returns the
timeout error after exactly `timeout/100 + 2` polls (at 100ms per poll,
with the strict `elapsed > timeout` check); and if the first successful
poll happens at index `k` within the window it returns success after
`k + 1` polls. -/
theorem wait_for_element_spec (found : Nat → Bool) (timeout_ms : Option Nat) :
    ((∀ j, found j = false) →
      wait_for_element found timeout_ms
        = (.error ("Element not found within "
            ++ toString (timeout_ms.getD 30000) ++ "ms"),
           timeout_ms.getD 30000 / 100 + 2)) ∧
    (∀ k, found k = true → (∀ i, i < k → found i = false) →
      k ≤ timeout_ms.getD 30000 / 100 + 1 →
      wait_for_element found timeout_ms = (.ok "Element found", k + 1)) := by
  constructor
  · intro hf
    rw [wait_for_element]
    exact waitLoop_never_found found _ hf _ 0 (by omega) (by omega)
  · intro k hk hmin hbound
    rw [wait_for_element]
    exact waitLoop_found found _ k hk hmin hbound _ 0 (by omega) (by omega)

/-- Claim C7 witness: a 200ms timeout with a never-resolving selector
(4 polls, timeout error), and an element that appears at the second poll
(success after 2 polls). -/
theorem wait_for_element_spec_witness :
    (wait_for_element (fun _ => false) (some 200)
      = (.error "Element not found within 200ms", 4)) ∧
    (wait_for_element (fun k => k == 1) (some 200) = (.ok "Element found", 2)) :=
  ⟨((wait_for_element_spec (fun _ => false) (some 200)).1 (fun _ => rfl)).trans rfl,
   (wait_for_element_spec (fun k => k == 1) (some 200)).2 1 rfl
     (by intro i hi; interval_cases i; rfl) (by norm_num)⟩

/-! ### Character-split lemmas for the fallback text parser -/

theorem splitOnChar_head (sep : Char) (l : List Char) :
    ∃ ss, splitOnChar sep l = (l.takeWhile fun c => !(c == sep)) :: ss := by
  induction l with
  | nil => exact ⟨[], rfl⟩
  | cons c rest ih =>
    by_cases h : c = sep
    · subst h
      exact ⟨splitOnChar c rest, by simp [splitOnChar, List.takeWhile_cons]⟩
    · obtain ⟨ss, hss⟩ := ih
      exact ⟨ss, by simp [splitOnChar, h, hss, List.takeWhile_cons]⟩

theorem splitOnChar_append_cons (sep : Char) (a r : List Char) (ha : sep ∉ a) :
    splitOnChar sep (a ++ sep :: r) = a :: splitOnChar sep r := by
  induction a with
  | nil => simp [splitOnChar]
  | cons c a ih =>
    have hc : ¬ (c = sep) := fun h => ha (by simp [h])
    have ha' : sep ∉ a := fun h => ha (List.mem_cons_of_mem _ h)
    simp [splitOnChar, hc, ih ha']

theorem splitOnChar_of_not_mem (sep : Char) (l : List Char) (h : sep ∉ l) :
    splitOnChar sep l = [l] := by
  induction l with
  | nil => rfl
  | cons c rest ih =>
    have hc : ¬ (c = sep) := fun hh => h (by simp [hh])
    have h' : sep ∉ rest := fun hh => h (List.mem_cons_of_mem _ hh)
    simp [splitOnChar, hc, ih h']

/-- Claim C10 counterexample: the label branches form an `else if` chain,
so the line "name: A brand: B" — which contains both `name:` and `brand:` —
sets only `name` (to the text between the first and second colon) and
leaves `brand` unset, while the claim requires every contained label's
field to be set. -/
theorem parse_text_response_multilabel_counterexample :
    (parse_text_response "name: A brand: B").brand = none ∧
    (parse_text_response "name: A brand: B").name = some "A brand" := by
  constructor <;> decide

/-- Claim C10 (amended): per (already-trimmed) line, the labels are tried
in priority order `name:`/`product:`, `price:`, `brand:`, `description:`,
each matched case-insensitively anywhere in the line, and only the first
matching label's field is set — to the trimmed text strictly between the
line's first and second colon (to the trimmed rest of the line when there
is no second colon); the other fields of a single-line input stay unset. -/
theorem parse_text_response_line_spec (a rest : List Char)
    (hnl : ('\n') ∉ a ++ ':' :: rest)
    (hna : (':') ∉ a)
    (htrim : trimChars (a ++ ':' :: rest) = a ++ ':' :: rest) :
    ((containsChars "name:".data (lowerChars (a ++ ':' :: rest)) ||
        containsChars "product:".data (lowerChars (a ++ ':' :: rest))) = true →
      (parse_text_response (String.mk (a ++ ':' :: rest))).name
          = some (String.mk (trimChars (rest.takeWhile fun c => !(c == ':')))) ∧
      (parse_text_response (String.mk (a ++ ':' :: rest))).price = none ∧
      (parse_text_response (String.mk (a ++ ':' :: rest))).brand = none ∧
      (parse_text_response (String.mk (a ++ ':' :: rest))).description = none) ∧
    ((containsChars "name:".data (lowerChars (a ++ ':' :: rest)) ||
        containsChars "product:".data (lowerChars (a ++ ':' :: rest))) = false →
      containsChars "price:".data (lowerChars (a ++ ':' :: rest)) = true →
      (parse_text_response (String.mk (a ++ ':' :: rest))).price
          = some (String.mk (trimChars (rest.takeWhile fun c => !(c == ':')))) ∧
      (parse_text_response (String.mk (a ++ ':' :: rest))).name = none ∧
      (parse_text_response (String.mk (a ++ ':' :: rest))).brand = none ∧
      (parse_text_response (String.mk (a ++ ':' :: rest))).description = none) ∧
    ((containsChars "name:".data (lowerChars (a ++ ':' :: rest)) ||
        containsChars "product:".data (lowerChars (a ++ ':' :: rest))) = false →
      containsChars "price:".data (lowerChars (a ++ ':' :: rest)) = false →
      containsChars "brand:".data (lowerChars (a ++ ':' :: rest)) = true →
      (parse_text_response (String.mk (a ++ ':' :: rest))).brand
          = some (String.mk (trimChars (rest.takeWhile fun c => !(c == ':')))) ∧
      (parse_text_response (String.mk (a ++ ':' :: rest))).name = none ∧
      (parse_text_response (String.mk (a ++ ':' :: rest))).price = none ∧
      (parse_text_response (String.mk (a ++ ':' :: rest))).description = none) ∧
    ((containsChars "name:".data (lowerChars (a ++ ':' :: rest)) ||
        containsChars "product:".data (lowerChars (a ++ ':' :: rest))) = false →
      containsChars "price:".data (lowerChars (a ++ ':' :: rest)) = false →
      containsChars "brand:".data (lowerChars (a ++ ':' :: rest)) = false →
      containsChars "description:".data (lowerChars (a ++ ':' :: rest)) = true →
      (parse_text_response (String.mk (a ++ ':' :: rest))).description
          = some (String.mk (trimChars (rest.takeWhile fun c => !(c == ':')))) ∧
      (parse_text_response (String.mk (a ++ ':' :: rest))).name = none ∧
      (parse_text_response (String.mk (a ++ ':' :: rest))).price = none ∧
      (parse_text_response (String.mk (a ++ ':' :: rest))).brand = none) := by
  have hline : splitOnChar '\n' (String.mk (a ++ ':' :: rest)).data
      = [a ++ ':' :: rest] := splitOnChar_of_not_mem '\n' _ hnl
  have hseg : (splitOnChar ':' (a ++ ':' :: rest))[1]?
      = some (rest.takeWhile fun c => !(c == ':')) := by
    rw [splitOnChar_append_cons ':' a rest hna]
    obtain ⟨ss, hss⟩ := splitOnChar_head ':' rest
    simp [hss]
  refine ⟨?_, ?_, ?_, ?_⟩
  · intro h1
    simp only [parse_text_response, hline, List.foldl, parse_text_line, htrim, h1,
      if_true, hseg]
    exact ⟨trivial, trivial, trivial, trivial⟩
  · intro h1 h2
    simp only [parse_text_response, hline, List.foldl, parse_text_line, htrim, h1, h2,
      Bool.false_eq_true, if_false, if_true, hseg]
    exact ⟨trivial, trivial, trivial, trivial⟩
  · intro h1 h2 h3
    simp only [parse_text_response, hline, List.foldl, parse_text_line, htrim, h1, h2, h3,
      Bool.false_eq_true, if_false, if_true, hseg]
    exact ⟨trivial, trivial, trivial, trivial⟩
  · intro h1 h2 h3 h4
    simp only [parse_text_response, hline, List.foldl, parse_text_line, htrim, h1, h2, h3, h4,
      Bool.false_eq_true, if_false, if_true, hseg]
    exact ⟨trivial, trivial, trivial, trivial⟩

/-- Claim C10 witness: the line "brand: Acme: Inc" — label matched
case-insensitively, value truncated at the second colon and trimmed. -/
theorem parse_text_response_line_spec_witness :
    (parse_text_response "brand: Acme: Inc").brand = some "Acme" ∧
    (parse_text_response "brand: Acme: Inc").name = none ∧
    (parse_text_response "brand: Acme: Inc").price = none ∧
    (parse_text_response "brand: Acme: Inc").description = none := by
  have h := (parse_text_response_line_spec "brand".data (" Acme: Inc").data
    (by decide) (by decide) (by decide)).2.2.1 (by decide) (by decide) (by decide)
  refine ⟨h.1.trans (by decide), h.2.1, h.2.2.1, h.2.2.2⟩

/-! ### Tool-calling loop lemmas -/

theorem runToolCalls_ok (execTool : ToolCall → Except String String)
    (he : ∀ tc, ∃ s, execTool tc = .ok s) (respContent : String) :
    ∀ (tcs : List ToolCall) (msgs : List ChatMessage),
      ∃ msgs', runToolCalls execTool respContent msgs tcs = .ok msgs' := by
  intro tcs
  induction tcs with
  | nil => intro msgs; exact ⟨msgs, rfl⟩
  | cons tc rest ih =>
    intro msgs
    obtain ⟨s, hs⟩ := he tc
    rw [runToolCalls, hs]
    exact ih _

theorem extractLoop_turns_le (c : List ChatMessage → Except String OllamaResponse)
    (e : ToolCall → Except String String) (p : String → ProductInfo) :
    ∀ fuel msgs, (extractLoop c e p fuel msgs).2 ≤ fuel := by
  intro fuel
  induction fuel with
  | zero => intro msgs; exact Nat.le_refl 0
  | succ fuel ih =>
    intro msgs
    cases hc : c msgs with
    | error err => simp [extractLoop, hc]
    | ok response =>
      cases htc : response.message.tool_calls with
      | some tool_calls =>
        cases hrun : runToolCalls e (response.message.content.getD "") msgs tool_calls with
        | error err => simp [extractLoop, hc, htc, hrun]
        | ok msgs' =>
          have hih := ih msgs'
          simp only [extractLoop, hc, htc, hrun]
          omega
      | none =>
        cases hco : response.message.content with
        | some content => simp [extractLoop, hc, htc, hco]
        | none => simp [extractLoop, hc, htc, hco]

theorem extractLoop_ok (c : List ChatMessage → Except String OllamaResponse)
    (e : ToolCall → Except String String) (p : String → ProductInfo)
    (hc : ∀ msgs, ∃ r, c msgs = .ok r) (he : ∀ tc, ∃ s, e tc = .ok s) :
    ∀ fuel msgs, ∃ product, (extractLoop c e p fuel msgs).1 = .ok product := by
  intro fuel
  induction fuel with
  | zero => intro msgs; exact ⟨create_fallback_product_info, rfl⟩
  | succ fuel ih =>
    intro msgs
    obtain ⟨response, hr⟩ := hc msgs
    cases htc : response.message.tool_calls with
    | some tool_calls =>
      obtain ⟨msgs', hrun⟩ := runToolCalls_ok e he (response.message.content.getD "")
        tool_calls msgs
      obtain ⟨product, hp⟩ := ih msgs'
      exact ⟨product, by simp [extractLoop, hr, htc, hrun, hp]⟩
    | none =>
      cases hco : response.message.content with
      | some content => exact ⟨p content, by simp [extractLoop, hr, htc, hco]⟩
      | none => exact ⟨create_fallback_product_info, by simp [extractLoop, hr, htc, hco]⟩

/-- Claim C3 counterexample: an unreachable LLM backend makes
`extract_product_information` propagate the error to its caller (the
`?` after `call_llama_with_tools`), instead of returning a fallback
`ProductInfo`. -/
theorem extract_product_information_propagates_backend_error :
    extract_product_information (.ok [])
      (fun _ => .error "Failed to call Ollama: connection refused")
      (fun _ => .error "unused") parse_text_response
      "https://example.com/product"
      = (.error "Failed to call Ollama: connection refused", 0) := rfl

/-- Claim C3 (amended): the loop performs at most its fixed bound of 5
tool-dispatching turns, and when the manifest fetch, every LLM call and
every tool execution succeed it returns a `ProductInfo`; failures of
those backend calls, however, propagate as errors to the caller. -/
theorem extract_product_information_spec (getTools : Except String (List Tool))
    (callLlama : List ChatMessage → Except String OllamaResponse)
    (execTool : ToolCall → Except String String) (parseFinal : String → ProductInfo)
    (url : String) :
    (extract_product_information getTools callLlama execTool parseFinal url).2 ≤ 5 ∧
    ((∃ tools, getTools = .ok tools) →
      (∀ msgs, ∃ r, callLlama msgs = .ok r) →
      (∀ tc, ∃ s, execTool tc = .ok s) →
      ∃ product,
        (extract_product_information getTools callLlama execTool parseFinal url).1
          = .ok product) := by
  constructor
  · cases hg : getTools with
    | error e => simp [extract_product_information, hg]
    | ok tools =>
      simpa [extract_product_information, hg] using
        extractLoop_turns_le callLlama execTool parseFinal 5
          [{ role := "system", content := enhanced_product_extraction_prompt,
             tool_calls := none },
           { role := "user", content := extraction_user_prompt url, tool_calls := none }]
  · rintro ⟨tools, htools⟩ hc he
    obtain ⟨product, hp⟩ := extractLoop_ok callLlama execTool parseFinal hc he 5
      [{ role := "system", content := enhanced_product_extraction_prompt,
         tool_calls := none },
       { role := "user", content := extraction_user_prompt url, tool_calls := none }]
    exact ⟨product, by simp [extract_product_information, htools, hp]⟩

/-- Claim C3 witness: a backend that always answers with plain content
and a tool server that always succeeds — the run returns a ProductInfo
within the turn bound. -/
theorem extract_product_information_spec_witness :
    (extract_product_information (.ok [])
        (fun _ => .ok { message := { content := some "no product data", tool_calls := none },
                        done := true })
        (fun _ => .ok "tool output") parse_text_response "https://example.com").2 ≤ 5 ∧
    ∃ product,
      (extract_product_information (.ok [])
        (fun _ => .ok { message := { content := some "no product data", tool_calls := none },
                        done := true })
        (fun _ => .ok "tool output") parse_text_response "https://example.com").1
        = .ok product :=
  ⟨(extract_product_information_spec _ _ _ _ _).1,
   (extract_product_information_spec _ _ _ _ _).2 ⟨[], rfl⟩
     (fun _ => ⟨_, rfl⟩) (fun _ => ⟨"tool output", rfl⟩)⟩

/-! ### JSON-LD merge lemmas -/

theorem mergeFields_preserves :
    ∀ (fields acc : List (String × Json)) (k : String) (v : Json),
      alistLookup acc k = some v → v.isNull = false →
      alistLookup (mergeFields acc fields) k = some v := by
  intro fields
  induction fields with
  | nil => intro acc k v h _; exact h
  | cons hd rest ih =>
    intro acc k v h hv
    obtain ⟨key, value⟩ := hd
    by_cases hk : key = k
    · subst hk
      have hcond : ((Json.obj acc).idx key).isNull = false := by
        simp [Json.idx, Json.get?, h, hv]
      simp only [mergeFields, hcond, Bool.false_eq_true, if_false]
      exact ih acc key v h hv
    · cases hc : ((Json.obj acc).idx key).isNull with
      | true =>
        simp only [mergeFields, hc, if_true]
        exact ih _ k v (by rw [alistLookup_setField_ne _ _ _ _ hk]; exact h) hv
      | false =>
        simp only [mergeFields, hc, Bool.false_eq_true, if_false]
        exact ih acc k v h hv

theorem mergeFields_fills :
    ∀ (fields acc : List (String × Json)) (k : String) (v : Json),
      alistLookup acc k = none → alistLookup fields k = some v → v.isNull = false →
      alistLookup (mergeFields acc fields) k = some v := by
  intro fields
  induction fields with
  | nil => intro acc k v _ h _; simp [alistLookup] at h
  | cons hd rest ih =>
    intro acc k v hacc hf hv
    obtain ⟨key, value⟩ := hd
    by_cases hk : key = k
    · subst hk
      have hval : value = v := by simpa [alistLookup] using hf
      subst hval
      have hcond : ((Json.obj acc).idx key).isNull = true := by
        simp [Json.idx, Json.get?, hacc, Json.isNull]
      simp only [mergeFields, hcond, if_true]
      exact mergeFields_preserves rest (setField acc key value) key value
        (alistLookup_setField_self acc key value) hv
    · have hf' : alistLookup rest k = some v := by simpa [alistLookup, hk] using hf
      cases hc : ((Json.obj acc).idx key).isNull with
      | true =>
        simp only [mergeFields, hc, if_true]
        exact ih _ k v (by rw [alistLookup_setField_ne _ _ _ _ hk]; exact hacc) hf' hv
      | false =>
        simp only [mergeFields, hc, Bool.false_eq_true, if_false]
        exact ih acc k v hacc hf' hv

theorem sp_foldl_str (doc : Document) :
    ∀ (sels : List (String × List String)) (acc : List (String × Json)),
      (∀ k v, alistLookup acc k = some v → ∃ s, v = Json.str s) →
      ∀ k v, alistLookup (sels.foldl (spStep doc) acc) k = some v → ∃ s, v = Json.str s := by
  intro sels
  induction sels with
  | nil => intro acc hacc k v h; exact hacc k v h
  | cons fs rest ih =>
    intro acc hacc k v h
    refine ih (spStep doc acc fs) ?_ k v h
    intro k' v' h'
    cases hsel : selectField doc fs.1 fs.2 with
    | none =>
      rw [spStep, hsel] at h'
      exact hacc k' v' h'
    | some val =>
      rw [spStep, hsel] at h'
      by_cases hk : fs.1 = k'
      · subst hk
        rw [alistLookup_setField_self] at h'
        exact ⟨val, (Option.some.injEq _ _ ▸ h').symm⟩
      · rw [alistLookup_setField_ne _ _ _ _ hk] at h'
        exact hacc k' v' h'

theorem ld_foldl_preserves (parseJson : String → Option Json) :
    ∀ (scripts : List Element) (acc : List (String × Json)) (k : String) (v : Json),
      alistLookup acc k = some v → v.isNull = false →
      alistLookup (scripts.foldl (ldStep parseJson) acc) k = some v := by
  intro scripts
  induction scripts with
  | nil => intro acc k v h _; exact h
  | cons el rest ih =>
    intro acc k v h hv
    have hstep : alistLookup (ldStep parseJson acc el) k = some v := by
      cases hp : parseJson el.textConcat with
      | none => simpa [ldStep, hp] using h
      | some json_ld =>
        cases hx : extract_product_from_jsonld json_ld with
        | none => simpa [ldStep, hp, hx] using h
        | some pj =>
          cases pj with
          | obj fields =>
            simpa [ldStep, hp, hx] using mergeFields_preserves fields acc k v h hv
          | null => simpa [ldStep, hp, hx] using h
          | bool b => simpa [ldStep, hp, hx] using h
          | num n => simpa [ldStep, hp, hx] using h
          | str s => simpa [ldStep, hp, hx] using h
          | arr xs => simpa [ldStep, hp, hx] using h
    exact ih _ k v hstep hv

theorem sp_foldl_id (doc : Document) :
    ∀ (sels : List (String × List String)) (acc : List (String × Json)),
      (∀ fs ∈ sels, selectField doc fs.1 fs.2 = none) →
      sels.foldl (spStep doc) acc = acc := by
  intro sels
  induction sels with
  | nil => intro acc _; rfl
  | cons fs rest ih =>
    intro acc h
    have h1 : selectField doc fs.1 fs.2 = none := h fs (List.mem_cons_self _ _)
    have hstep : spStep doc acc fs = acc := by simp [spStep, h1]
    rw [List.foldl_cons, hstep]
    exact ih acc (fun g hg => h g (List.mem_cons_of_mem _ hg))

/-- Claim C6: in `extract_product_data`, JSON-LD fills only fields the
CSS-selector pass left absent — every field the selector pass produced
(always a non-empty string) survives the overlay unchanged — and on a
document whose CSS selectors match nothing but which carries one JSON-LD
script parsing to a `Product` item, the result carries exactly that item's
(non-null) fields. -/
theorem extract_product_data_overlay (doc : Document) (parseJson : String → Option Json) :
    (∀ k v, alistLookup (selector_pass doc) k = some v →
      alistLookup (extract_product_data_core doc parseJson) k = some v) ∧
    (∀ e json_ld fields,
      (∀ fs ∈ product_selectors, selectField doc fs.1 fs.2 = none) →
      doc ldSelector = some [e] →
      parseJson e.textConcat = some json_ld →
      extract_product_from_jsonld json_ld = some (.obj fields) →
      ∀ k v, alistLookup fields k = some v → v.isNull = false →
        alistLookup (extract_product_data_core doc parseJson) k = some v) := by
  constructor
  · intro k v hv
    have hstr : ∃ s, v = Json.str s := by
      have := sp_foldl_str doc product_selectors []
        (by intro k' v' h'; simp [alistLookup] at h') k v
      exact this hv
    have hnn : v.isNull = false := by
      obtain ⟨s, rfl⟩ := hstr; rfl
    rw [extract_product_data_core]
    cases hd : doc ldSelector with
    | none => simpa [jsonld_pass, hd] using hv
    | some scripts =>
      simpa [jsonld_pass, hd] using
        ld_foldl_preserves parseJson scripts (selector_pass doc) k v hv hnn
  · intro e json_ld fields hnone hdoc hp hx k v hkv hvn
    have hsp : selector_pass doc = [] :=
      sp_foldl_id doc product_selectors [] hnone
    rw [extract_product_data_core, hsp]
    simp only [jsonld_pass, hdoc, List.foldl_cons, List.foldl_nil]
    have hstep : ldStep parseJson [] e = mergeFields [] fields := by
      simp [ldStep, hp, hx]
    rw [hstep]
    exact mergeFields_fills fields [] k v rfl hkv hvn

/-- Claim C6 witness: the selector-precedence half at a document where
`#productTitle` matches, and the JSON-LD half at a document with no
selector matches and one `Product` script. -/
theorem extract_product_data_overlay_witness :
    (alistLookup
      (extract_product_data_core
        (fun s => if s == "#productTitle"
          then some [{ textParts := ["The Widget"], attrs := [] }] else some [])
        (fun _ => none)) "name" = some (.str "The Widget")) ∧
    (alistLookup
      (extract_product_data_core
        (fun s => if s == ldSelector
          then some [{ textParts := ["ld-product-blob"], attrs := [] }] else some [])
        (fun s => if s == "ld-product-blob"
          then some (.obj [("@type", .str "Product"), ("name", .str "LD Widget")])
          else none)) "name" = some (.str "LD Widget")) :=
  ⟨(extract_product_data_overlay _ _).1 "name" (.str "The Widget") rfl,
   (extract_product_data_overlay _ _).2
     { textParts := ["ld-product-blob"], attrs := [] }
     (.obj [("@type", .str "Product"), ("name", .str "LD Widget")])
     [("name", .str "LD Widget")]
     (by decide) rfl rfl rfl
     "name" (.str "LD Widget") rfl rfl⟩

end WebAgent
